import Mathlib

/-!
Verification development for the TaxFinder-VN fetch-and-extract engine.

The Python sources are shallowly embedded: pure computations become Lean
functions, the stateful rate limiter becomes explicit state passing plus a
reachability relation, wall-clock times and sizes are rationals, fallible
operations return `Option`/`Except`, and a Python function that can fall off
the end of its body (returning `None`) returns an `Option`.
-/

namespace TaxFinderVN

/-! ## Rate limiter (`masothue/rate_limiter.py`)

`RateLimiter.wait_if_needed` is embedded as a pure state transformer.  The
call observes the clock (`now`), possibly draws a random inter-request delay
(`drawn`, the value `random.uniform(min_delay, max_delay)` would produce),
appends `now` to the window, and — when a positive wait was computed — sleeps
and re-evicts at the post-sleep clock value `now2`.
-/

/-- Configuration of `RateLimiter.__init__`. -/
structure RLConfig where
  maxRequests : Nat
  timeWindow : ℚ
  minDelay : ℚ
  maxDelay : ℚ
  useRandomDelay : Bool
deriving DecidableEq

/-- Mutable state of a `RateLimiter`: the deque `request_times` (oldest
first) and `last_request_time`. -/
structure RLState where
  requestTimes : List ℚ
  lastRequestTime : Option ℚ
deriving DecidableEq

/-- The eviction loop `while request_times and (now - request_times[0]) >
time_window: popleft()`. -/
def evictOld (tw now : ℚ) : List ℚ → List ℚ
  | [] => []
  | x :: xs => if now - x > tw then evictOld tw now xs else x :: xs

/-- The window-capacity wait: `time_window - (now - request_times[0]) + 0.1`
when the (already evicted) window holds at least `max_requests` entries,
clamped at zero, else zero.  (With `max_requests = 0` and an empty deque the
Python code would raise `IndexError`; `headD 0` stands in for that
inaccessible subscript.) -/
def windowWait (cfg : RLConfig) (ts : List ℚ) (now : ℚ) : ℚ :=
  if cfg.maxRequests ≤ ts.length then
    let w := cfg.timeWindow - (now - ts.headD 0) + 1 / 10
    if w ≤ 0 then 0 else w
  else 0

/-- The minimum-spacing target: `random.uniform(min_delay, max_delay)` when
randomization is on (the drawn value is the parameter), else `min_delay`. -/
def delayTarget (cfg : RLConfig) (drawn : ℚ) : ℚ :=
  if cfg.useRandomDelay then drawn else cfg.minDelay

/-- The total `wait_time` computed by `wait_if_needed` before it records the
new timestamp: window wait, maxed with the remaining minimum spacing since
`last_request_time`. -/
def computeWaitTime (cfg : RLConfig) (s : RLState) (now drawn : ℚ) : ℚ :=
  let ts := evictOld cfg.timeWindow now s.requestTimes
  let w := windowWait cfg ts now
  match s.lastRequestTime with
  | none => w
  | some last =>
      if now - last < delayTarget cfg drawn then
        max w (delayTarget cfg drawn - (now - last))
      else w

/-- State right after `request_times.append(now)` / `last_request_time = now`
(end of the locked section, before the `time.sleep` that happens outside the
lock). -/
def midCallState (cfg : RLConfig) (s : RLState) (now : ℚ) : RLState :=
  ⟨evictOld cfg.timeWindow now s.requestTimes ++ [now], some now⟩

/-- The post-call state of `wait_if_needed`: when a positive wait was
computed, the deque is re-evicted at the post-sleep clock `now2`. -/
def waitIfNeeded (cfg : RLConfig) (s : RLState) (now drawn now2 : ℚ) : RLState :=
  let wt := computeWaitTime cfg s now drawn
  let mid := midCallState cfg s now
  if 0 < wt then ⟨evictOld cfg.timeWindow now2 mid.requestTimes, mid.lastRequestTime⟩
  else mid

/-- Number of window entries whose age at time `t` is at most `tw`. -/
def countRecent (tw t : ℚ) (l : List ℚ) : Nat :=
  (l.filter (fun x => decide (t - x ≤ tw))).length

/-- States reachable by a sequence of `wait_if_needed` calls, paired with the
clock value at which the state was produced.  The side conditions say that
the clock is monotone and that `time.sleep(wait_time)` suspends for at least
`wait_time` seconds. -/
inductive RLReachable (cfg : RLConfig) : RLState → ℚ → Prop
  | init (t0 : ℚ) : RLReachable cfg ⟨[], none⟩ t0
  | step {s : RLState} {t : ℚ} (now drawn now2 : ℚ)
      (hs : RLReachable cfg s t) (hmono : t ≤ now)
      (hslept : 0 < computeWaitTime cfg s now drawn →
        now + computeWaitTime cfg s now drawn ≤ now2)
      (hnosleep : ¬ 0 < computeWaitTime cfg s now drawn → now2 = now) :
      RLReachable cfg (waitIfNeeded cfg s now drawn now2) now2

/-- Invariant maintained at call boundaries: window sorted, all entries no
newer than the clock and no older than the window, and at most
`max_requests` entries. -/
def WindowInv (cfg : RLConfig) (s : RLState) (t : ℚ) : Prop :=
  s.requestTimes.Sorted (· ≤ ·) ∧
  (∀ x ∈ s.requestTimes, x ≤ t ∧ t - x ≤ cfg.timeWindow) ∧
  s.requestTimes.length ≤ cfg.maxRequests

/-- Concrete configuration for the counterexample: 2 requests per 60-second
window, fixed 1-second minimum delay (`use_random_delay = False`). -/
def rlCfgCex : RLConfig := ⟨2, 60, 1, 3, false⟩

/-- State reached after admissions recorded at times 0 and 0.5 (the second
call sleeps 0.5 s to honor `min_delay` and returns at time 1). -/
def rlStateCex : RLState := ⟨[0, 1 / 2], some (1 / 2)⟩

/-! ## Block detector (`MasothueClient._has_captcha`, `masothue/client.py`)

HTML is embedded as the raw body string plus the flat list of parsed
elements (tag, class list, id, src, present attribute names) — `soup.find`
and `soup.find_all` search all elements, so a flat list suffices.  The
regex patterns of `CAPTCHA_WIDGET_PATTERNS` are literal strings matched
case-insensitively anywhere in a class/id value, which `re.search` with
`re.I` does for these patterns.  Whether (and in which handler class) the
structural phase raises is an input, since it depends on library internals.
-/

/-- Boolean test that `n` is an initial segment of `h` (character lists). -/
def isPrefixCL : List Char → List Char → Bool
  | [], _ => true
  | _ :: _, [] => false
  | a :: as, b :: bs => a == b && isPrefixCL as bs

/-- Boolean test that `n` occurs contiguously inside the second list. -/
def infixCL (n : List Char) : List Char → Bool
  | [] => n.isEmpty
  | b :: bs => isPrefixCL n (b :: bs) || infixCL n bs

/-- Python `needle in hay` on strings. -/
def strIn (needle hay : String) : Bool := infixCL needle.toList hay.toList

/-- Python `str.lower()` (ASCII case folding; the keyword constants below
are already lowercase). -/
def pyLower (s : String) : String := ⟨s.data.map Char.toLower⟩

/-- One parsed HTML element. -/
structure Elem where
  tag : String
  classes : List String
  idAttr : Option String
  srcAttr : Option String
  attrNames : List String
deriving DecidableEq

/-- One fetched page: raw body text plus parsed elements. -/
structure Page where
  html : String
  elems : List Elem
deriving DecidableEq

/-- The `quick_indicators` list of `_has_captcha`. -/
def quickIndicators : List String :=
  ["geetest", "recaptcha", "hcaptcha", "captcha.js", "gt.js", "data-sitekey",
   "data-widget-id", "vui lòng xác minh bạn không phải robot",
   "please verify you are not a robot"]

/-- The literal cores of `CAPTCHA_WIDGET_PATTERNS`. -/
def captchaWidgetPatterns : List String :=
  ["geetest", "g-recaptcha", "h-captcha", "captcha-container", "captcha-box",
   "captcha-wrapper", "captcha-widget", "gt_holder", "gt_box"]

/-- The alternatives of `CAPTCHA_TEXT_PATTERN` (`geetest|recaptcha|hcaptcha`). -/
def captchaTextPatternKeys : List String := ["geetest", "recaptcha", "hcaptcha"]

/-- Indicators looked for in `script` tag `src` attributes. -/
def scriptIndicators : List String :=
  ["geetest", "recaptcha", "hcaptcha", "captcha.js", "gt.js"]

/-- Indicators looked for in `iframe` `src` attributes. -/
def iframeIndicators : List String := ["recaptcha", "hcaptcha", "geetest"]

/-- The `captcha_data_attrs` list. -/
def captchaDataAttrs : List String :=
  ["data-sitekey", "data-callback", "data-widget-id"]

/-- The `specific_captcha_texts` list. -/
def specificCaptchaTexts : List String :=
  ["vui lòng xác minh bạn không phải robot",
   "please verify you are not a robot",
   "vui lòng hoàn thành xác minh",
   "please complete the verification"]

/-- Does some class value of `e` match the (case-insensitive, literal)
pattern `pat`? -/
def matchesClassPattern (pat : String) (e : Elem) : Bool :=
  e.classes.any (fun c => strIn pat (pyLower c))

/-- Does the id of `e` match the pattern `pat`? -/
def matchesIdPattern (pat : String) (e : Elem) : Bool :=
  match e.idAttr with
  | some i => strIn pat (pyLower i)
  | none => false

/-- The structural confirmation phase of `_has_captcha`: widget class/id
patterns, challenge scripts, challenge iframes, captcha data attributes, and
verification phrases co-located with a matching widget class. -/
def structuralCaptcha (p : Page) : Bool :=
  captchaWidgetPatterns.any (fun pat =>
      p.elems.any (matchesClassPattern pat) || p.elems.any (matchesIdPattern pat)) ||
  p.elems.any (fun e => e.tag == "script" && e.srcAttr.isSome &&
      scriptIndicators.any (fun k => strIn k (pyLower (e.srcAttr.getD "")))) ||
  p.elems.any (fun e => e.tag == "iframe" &&
      iframeIndicators.any (fun k => strIn k (pyLower (e.srcAttr.getD "")))) ||
  captchaDataAttrs.any (fun a => p.elems.any (fun e => e.attrNames.contains a)) ||
  specificCaptchaTexts.any (fun t => strIn t (pyLower p.html) &&
      p.elems.any (fun e => e.classes.any (fun c =>
        captchaTextPatternKeys.any (fun k => strIn k (pyLower c)))))

/-- Which handler an exception from the structural phase falls into:
`except (AttributeError, ValueError, TypeError)` or the generic
`except Exception`. -/
inductive ParsePhaseError
  | attrValueType
  | otherExc
deriving DecidableEq

/-- The keyword-only scan of the generic exception handler
(`['geetest', 'g-recaptcha', 'h-captcha']`). -/
def keywordOnlyScan (p : Page) : Bool :=
  ["geetest", "g-recaptcha", "h-captcha"].any (fun k => strIn k (pyLower p.html))

/-- Embedding of `_has_captcha`.  Returns `some b` for a Python `True` or
`False` and `none` for the implicit `None` returned when the first `except`
clause runs off the end of the function body.  `raised` says whether the
structural phase raises, and into which handler the exception falls. -/
def hasCaptcha (p : Page) (raised : Option ParsePhaseError) : Option Bool :=
  if !(quickIndicators.any (fun k => strIn k (pyLower p.html))) then some false
  else
    match raised with
    | none => some (structuralCaptcha p)
    | some ParsePhaseError.attrValueType => none
    | some ParsePhaseError.otherExc => some (keywordOnlyScan p)

/-- A page whose prose mentions "recaptcha" with no widget markup at all. -/
def prosePage : Page :=
  ⟨"<p>a blog post mentioning the word recaptcha in ordinary prose</p>",
   [⟨"p", [], none, none, []⟩]⟩

/-- A page with a `g-recaptcha` class container. -/
def widgetPage : Page :=
  ⟨"<div class=g-recaptcha data-sitekey=abc></div>",
   [⟨"div", ["g-recaptcha"], none, none, ["data-sitekey"]⟩]⟩

/-- A page with none of the quick keywords. -/
def plainPage : Page := ⟨"<html><body>hello world</body></html>", []⟩

/-- A body containing the block keyword "geetest". -/
def geetestPage : Page := ⟨"geetest challenge page", []⟩

/-! ## Cooldown-aware fetcher (`MasothueClient._get_html_and_soup`)

The retry loop is embedded with the per-attempt network outcome supplied as
a function of the attempt index.  Exception *construction* is modelled:
Python evaluates constructor arguments against `__init__`'s parameter list,
and a keyword argument that is not a parameter raises `TypeError` instead of
producing the intended exception object. -/

/-- Python `str.strip()` (whitespace from both ends). -/
def pyStrip (s : String) : String :=
  ⟨((s.data.dropWhile Char.isWhitespace).reverse.dropWhile Char.isWhitespace).reverse⟩

/-- Value of a nonempty all-digit character list. -/
def digitsVal (cs : List Char) : Option Nat :=
  if cs.isEmpty then none
  else if cs.all Char.isDigit then
    some (cs.foldl (fun n c => 10 * n + (c.toNat - 48)) 0)
  else none

/-- Python `int(s)` on a string: optional surrounding whitespace, optional
sign, a nonempty digit run; anything else raises `ValueError` (`none`).
(Digit-group underscores are not modelled.) -/
def pyInt (s : String) : Option Int :=
  match (pyStrip s).data with
  | '+' :: rest => (digitsVal rest).map (fun n => (n : Int))
  | '-' :: rest => (digitsVal rest).map (fun n => -(n : Int))
  | t => (digitsVal t).map (fun n => (n : Int))

/-- The cool-down duration computed for an HTTP 403/429:
`int(headers.get("Retry-After", "30"))` with `ValueError`/`TypeError`
defaulting to 30, then raised to at least 60 for status 403. -/
def cooldownWait (status : Nat) (retryAfter : Option String) : Int :=
  let waitTime := (pyInt (retryAfter.getD "30")).getD 30
  if status = 403 then max waitTime 60 else waitTime

/-- The chunked cool-down sleep loop (`chunk_size = 5`), run when a
cancellation callback is installed: total seconds slept. -/
def chunkSleepGo : Nat → Int → Int
  | 0, _ => 0
  | fuel + 1, remaining =>
      if 0 < remaining then
        let s := min 5 remaining
        s + chunkSleepGo fuel (remaining - s)
      else 0

/-- Total seconds slept by the chunked cool-down loop. -/
def chunkSleepTotal (wt : Int) : Int := chunkSleepGo wt.toNat wt

/-- Python `time.sleep`: raises `ValueError` (`none`) on a negative
duration, else sleeps the requested duration. -/
def pySleep (secs : Int) : Option Int := if secs < 0 then none else some secs

/-- Seconds slept during cool-down: the chunked loop when a cancellation
callback is installed, a single `time.sleep(wait_time)` otherwise. -/
def cooldownSleep (hasCallback : Bool) (wt : Int) : Option Int :=
  if hasCallback then some (chunkSleepTotal wt) else pySleep wt

/-- Parameter names accepted by `NetworkError.__init__`
(`masothue/exceptions.py`, lines 30–36). -/
def networkErrorInitParams : List String := ["message", "original_error"]

/-- Exception actually raised by a fetch attempt sequence. -/
inductive RaisedError
  | networkErr (url : String) (status : Option Nat)
  | typeErr
  | captchaErr (url : String)
  | valueErr
deriving DecidableEq

/-- Python evaluation of `raise NetworkError(**kwargs)`: if every keyword is
an accepted `__init__` parameter the `NetworkError` is raised; otherwise the
constructor call itself raises `TypeError`. -/
def pyRaiseNetworkError (url : String) (status : Option Nat)
    (kwargs : List String) : RaisedError :=
  if kwargs.all (fun k => networkErrorInitParams.contains k) then
    RaisedError.networkErr url status
  else RaisedError.typeErr

/-- Keywords passed at the exhausted-cool-down raise site (client.py 269). -/
def kwargsCooldownExhausted : List String :=
  ["message", "url", "status_code", "original_error"]

/-- Keywords passed at the exhausted generic-HTTP raise site (client.py 278). -/
def kwargsHttpExhausted : List String :=
  ["message", "url", "status_code", "original_error"]

/-- Keywords passed at the exhausted transport-error raise site (client.py 297). -/
def kwargsTransportExhausted : List String := ["message", "url", "original_error"]

/-- Keywords passed at the loop fall-through raise site (client.py 311). -/
def kwargsFallthrough : List String := ["message", "url"]

/-- Network-level outcome of one GET attempt. -/
inductive AttemptResult
  | success (p : Page)
  | transportError
  | httpError (status : Nat) (retryAfter : Option String)
deriving DecidableEq

/-- Result of `_get_html_and_soup`: the returned page or the raised error. -/
inductive FetchOutcome
  | ok (p : Page)
  | raised (e : RaisedError)
deriving DecidableEq

/-- Fetch result together with the total cool-down seconds slept. -/
structure FetchRes where
  outcome : FetchOutcome
  cooldownSlept : Int
deriving DecidableEq

/-- The retry loop of `_get_html_and_soup` (fuel = remaining attempts;
cancellation never fires; on success pages the structural captcha phase is
assumed not to raise). -/
def fetchGo (url : String) (retries : Nat) (cb : Bool)
    (outcomes : Nat → AttemptResult) : Nat → Nat → FetchRes
  | _, 0 => ⟨.raised (pyRaiseNetworkError url none kwargsFallthrough), 0⟩
  | attempt, fuel + 1 =>
      match outcomes attempt with
      | .success p =>
          if hasCaptcha p none = some true then ⟨.raised (.captchaErr url), 0⟩
          else ⟨.ok p, 0⟩
      | .transportError =>
          if attempt == retries - 1 then
            ⟨.raised (pyRaiseNetworkError url none kwargsTransportExhausted), 0⟩
          else fetchGo url retries cb outcomes (attempt + 1) fuel
      | .httpError st ra =>
          if st == 403 || st == 429 then
            match cooldownSleep cb (cooldownWait st ra) with
            | none => ⟨.raised .valueErr, 0⟩
            | some slept =>
                if attempt < retries - 1 then
                  let rest := fetchGo url retries cb outcomes (attempt + 1) fuel
                  ⟨rest.outcome, slept + rest.cooldownSlept⟩
                else ⟨.raised (pyRaiseNetworkError url (some st) kwargsCooldownExhausted), slept⟩
          else
            if attempt == retries - 1 then
              ⟨.raised (pyRaiseNetworkError url (some st) kwargsHttpExhausted), 0⟩
            else fetchGo url retries cb outcomes (attempt + 1) fuel

/-- Embedding of `_get_html_and_soup` for a whole logical fetch of `url`
with `retries` attempts. -/
def fetchLoop (url : String) (retries : Nat) (cb : Bool)
    (outcomes : Nat → AttemptResult) : FetchRes :=
  fetchGo url retries cb outcomes 0 retries

/-! ## Result cache (`FileCache`, `masothue/cache.py`)

The cache directory is embedded as a list of entries; the MD5 filename of a
key is modelled by the key itself (the hash only serves as a stable
injective filename).  Sizes are in MB, times in epoch seconds, both
rational.  Entries are assumed readable (an unreadable entry is skipped by
`_get_cache_files_sorted` and treated as a miss by `get`). -/

/-- Configuration of `FileCache.__init__`. -/
structure FileCacheConfig where
  expiryDays : ℚ
  maxSizeMb : ℚ
  enableCleanup : Bool
deriving DecidableEq

/-- One cache file: key (stands for the hashed filename), size in MB, the
stored `_cached_at` stamp, and the stored field map (without `_cached_at`). -/
structure CFile where
  key : String
  size : ℚ
  cachedAt : ℚ
  data : List (String × String)
deriving DecidableEq

/-- The expiry horizon `expiry_days * 24 * 3600` seconds. -/
def expirySeconds (cfg : FileCacheConfig) : ℚ := cfg.expiryDays * 24 * 3600

/-- The expiry test `time.time() - cached_time > expiry_days * 24 * 3600`. -/
def isExpiredAt (cfg : FileCacheConfig) (now : ℚ) (f : CFile) : Bool :=
  decide (expirySeconds cfg < now - f.cachedAt)

/-- Embedding of `FileCache.get`: result value (with `_cached_at` popped)
and the cache directory after the call (an expired entry is unlinked). -/
def cacheGet (cfg : FileCacheConfig) (now : ℚ) (fs : List CFile) (key : String) :
    Option (List (String × String)) × List CFile :=
  match fs.find? (fun f => f.key == key) with
  | none => (none, fs)
  | some f =>
      if isExpiredAt cfg now f then (none, fs.filter (fun g => !(g.key == key)))
      else (some f.data, fs)

/-- Total size of the cache directory in MB (`_get_cache_size_mb`). -/
def totalSizeMb (fs : List CFile) : ℚ := (fs.map (fun f => f.size)).sum

/-- Sort order of `_get_cache_files_sorted`: ascending `_cached_at`. -/
def byCachedAt (a b : CFile) : Prop := a.cachedAt ≤ b.cachedAt

instance : DecidableRel byCachedAt := fun a b =>
  inferInstanceAs (Decidable (a.cachedAt ≤ b.cachedAt))

instance : IsTotal CFile byCachedAt := ⟨fun a b => le_total a.cachedAt b.cachedAt⟩

instance : IsTrans CFile byCachedAt := ⟨fun _ _ _ hab hbc => le_trans hab hbc⟩

/-- Embedding of `_get_cache_files_sorted` (oldest `_cached_at` first). -/
def getCacheFilesSorted (fs : List CFile) : List CFile :=
  List.insertionSort byCachedAt fs

/-- The deletion loop of `_cleanup_if_needed` when over the cap.  Returns
`(deleted, examined-but-kept, unexamined)`: a file is deleted when expired
or while the deleted amount is still below the excess, and the loop breaks
once the deleted amount reaches the excess. -/
def cleanupLoop (cfg : FileCacheConfig) (now excess : ℚ) :
    ℚ → List CFile → List CFile × List CFile × List CFile
  | _, [] => ([], [], [])
  | dsize, f :: rest =>
      if isExpiredAt cfg now f || decide (dsize < excess) then
        if excess ≤ dsize + f.size then ([f], [], rest)
        else
          let r := cleanupLoop cfg now excess (dsize + f.size) rest
          (f :: r.1, r.2.1, r.2.2)
      else
        if excess ≤ dsize then ([], [f], rest)
        else
          let r := cleanupLoop cfg now excess dsize rest
          (r.1, f :: r.2.1, r.2.2)

/-- Embedding of `_cleanup_if_needed`: within the cap only expired entries
are purged; over the cap the sorted deletion loop runs and the files not
deleted remain. -/
def cleanupIfNeeded (cfg : FileCacheConfig) (now : ℚ) (fs : List CFile) :
    List CFile :=
  if totalSizeMb fs ≤ cfg.maxSizeMb then fs.filter (fun f => !isExpiredAt cfg now f)
  else
    let r := cleanupLoop cfg now (totalSizeMb fs - cfg.maxSizeMb) 0
      (getCacheFilesSorted fs)
    r.2.1 ++ r.2.2

/-- The file write performed by `FileCache.set` (one file per key; a
re-written key replaces its file). -/
def writeEntry (now : ℚ) (fs : List CFile) (key : String)
    (value : List (String × String)) (fileSize : ℚ) : List CFile :=
  ⟨key, fileSize, now, value⟩ :: fs.filter (fun f => !(f.key == key))

/-- Embedding of `FileCache.set`: write the entry, then clean up when
cleanup is enabled. -/
def cacheSet (cfg : FileCacheConfig) (now : ℚ) (fs : List CFile) (key : String)
    (value : List (String × String)) (fileSize : ℚ) : List CFile :=
  let fs2 := writeEntry now fs key value fileSize
  if cfg.enableCleanup then cleanupIfNeeded cfg now fs2 else fs2

/-! ## Search results and detail merging (`search_companies`,
`_update_result_from_details`, `_parse_representative`)

`search_companies` is embedded from the point where the search page has been
fetched and parsed: the candidate list and the behavior of
`get_company_details` (a network operation) are parameters.  Python
exceptions become `Except.error` of an error kind; a dict value's
truthiness (`None` and `""` are falsy) is `pyTruthy`. -/

/-- Error kinds observable around `search_companies`. -/
inductive PyErr
  | networkErr
  | parseErr
  | captchaErr
  | cancelledErr
  | validationErr
  | otherExc
deriving DecidableEq

/-- The `CompanySearchResult` dataclass (`masothue/models.py`). -/
structure CompanySearchResult where
  name : String
  tax_code : String
  representative : Option String
  address : Option String
  detail_url : Option String
  tax_address : Option String
  phone : Option String
  status : Option String
  operation_date : Option String
  managed_by : Option String
  business_type : Option String
  main_business : Option String
  other_businesses : Option (List String)
deriving DecidableEq

/-- The details dict built by `get_company_details`, one optional entry per
fixed field key (`dict.get` of a missing key is `none`). -/
structure DetailInfo where
  tax_code : Option String
  tax_address : Option String
  address : Option String
  representative : Option String
  phone : Option String
  status : Option String
  operation_date : Option String
  managed_by : Option String
  business_type : Option String
  main_business : Option String
  other_businesses : Option (List String)
deriving DecidableEq

/-- Python truthiness of an optional string (`None` and `""` are falsy). -/
def pyTruthy : Option String → Bool
  | none => false
  | some s => !(s == "")

/-- Python `x or y` on optional strings. -/
def pyOrOpt (x y : Option String) : Option String :=
  if pyTruthy x then x else y

/-- Embedding of `_update_result_from_details`: `tax_address`, `phone`,
`status`, `operation_date`, `managed_by`, `business_type`, `main_business`
and `other_businesses` are overwritten with the detail values (possibly
`None`); `address` and `representative` use `detail or existing`. -/
def updateResultFromDetails (r : CompanySearchResult) (d : DetailInfo) :
    CompanySearchResult :=
  { r with
    tax_address := d.tax_address
    address := pyOrOpt d.address r.address
    representative := pyOrOpt d.representative r.representative
    phone := d.phone
    status := d.status
    operation_date := d.operation_date
    managed_by := d.managed_by
    business_type := d.business_type
    main_business := d.main_business
    other_businesses := d.other_businesses }

/-- Python `str.isdigit()` (ASCII digits; nonempty). -/
def isdigitStr (s : String) : Bool := !s.data.isEmpty && s.data.all Char.isDigit

/-- Embedding of `sanitize_query` (`masothue/utils.py`) with
`MAX_QUERY_LENGTH = 200`, `MIN_QUERY_LENGTH = 1` from constants.py. -/
def sanitizeQuery (q : String) : String :=
  if q == "" then ""
  else
    let s := pyStrip q
    let s := if 200 < s.length then ⟨s.data.take 200⟩ else s
    if s.length < 1 then "" else s

/-- The identifier-exact loop of `search_companies` (`for result in results:
if result.tax_code == query_clean: ...; return [result]` / `return []`).
`NetworkError` and `ParseError` (and unexpected exceptions) from the detail
fetch are swallowed; `CaptchaRequiredError` and `CancelledError` re-raise. -/
def searchLoop (gd : String → Except PyErr DetailInfo) (q : String) :
    List CompanySearchResult → Except PyErr (List CompanySearchResult)
  | [] => Except.ok []
  | r :: rest =>
      if r.tax_code == q then
        match r.detail_url with
        | none => Except.ok [r]
        | some url =>
            match gd url with
            | Except.ok d => Except.ok [updateResultFromDetails r d]
            | Except.error PyErr.captchaErr => Except.error PyErr.captchaErr
            | Except.error PyErr.cancelledErr => Except.error PyErr.cancelledErr
            | Except.error _ => Except.ok [r]
      else searchLoop gd q rest

/-- Embedding of `search_companies` from the parsed search page onward:
sanitize, reject empty queries with `ValidationError`, then the digit-query
loop, else (optionally) detail-merge every candidate, swallowing every
detail-fetch exception. -/
def searchCompanies (gd : String → Except PyErr DetailInfo)
    (parsedResults : List CompanySearchResult) (query : String)
    (fetchDetails : Bool) : Except PyErr (List CompanySearchResult) :=
  let q := sanitizeQuery query
  if q == "" then Except.error PyErr.validationErr
  else
    let queryClean := pyStrip q
    if isdigitStr queryClean then searchLoop gd queryClean parsedResults
    else if fetchDetails then
      Except.ok (parsedResults.map (fun r =>
        match r.detail_url with
        | some url =>
            match gd url with
            | Except.ok d => updateResultFromDetails r d
            | Except.error _ => r
        | none => r))
    else Except.ok parsedResults

/-- The detail fields of `r` agree with what merging `d` produces: the
unconditional fields equal the dict values, and a truthy detail `address`
or `representative` wins. -/
def MergedFrom (r : CompanySearchResult) (d : DetailInfo) : Prop :=
  r.tax_address = d.tax_address ∧ r.phone = d.phone ∧ r.status = d.status ∧
  r.operation_date = d.operation_date ∧ r.managed_by = d.managed_by ∧
  r.business_type = d.business_type ∧ r.main_business = d.main_business ∧
  r.other_businesses = d.other_businesses ∧
  (pyTruthy d.address = true → r.address = d.address) ∧
  (pyTruthy d.representative = true → r.representative = d.representative)

/-- Detail map returned by the stubbed detail fetch in the C3 witness. -/
def dW3 : DetailInfo :=
  ⟨some "1234567890", some "1 Tran Hung Dao", none, some "Nguyen Van A", none,
   some "dang hoat dong", none, none, none, none, none⟩

/-- Detail fetch that always succeeds with `dW3`. -/
def gdW3 : String → Except PyErr DetailInfo := fun _ => Except.ok dW3

/-- Search-page candidate matching the query "1234567890". -/
def rW3 : CompanySearchResult :=
  ⟨"ACME LTD", "1234567890", none, none, some "https://masothue.com/1234567890",
   none, none, none, none, none, none, none, none⟩

/-- Search-page candidate for the C10 witness. -/
def rW10 : CompanySearchResult :=
  ⟨"FOO JSC", "9876543210", none, none, some "https://masothue.com/9876543210",
   none, none, none, none, none, none, none, none⟩

/-! ### Representative extraction (`_parse_representative`)

The eight extraction helpers navigate the BeautifulSoup tree; their
(already internally validated) candidate results are abstracted as the
fields of `RepStrategies`, while the control flow of
`_parse_representative` — the early return for an already-set field, the
first-truthy strategy chain, and the final cleaning step — is embedded
directly. -/

/-- Part of a character list before the first occurrence of `sep`. -/
def splitFirstCL (sep : List Char) : List Char → List Char
  | [] => []
  | c :: rest => if isPrefixCL sep (c :: rest) then [] else c :: splitFirstCL sep rest

/-- Python `s.split(sep)[0]` for nonempty `sep`. -/
def splitFirst (sep s : String) : String := ⟨splitFirstCL sep.data s.data⟩

/-- Python `s.strip(cs)`: remove the characters of `cs` from both ends. -/
def stripChars (cs s : String) : String :=
  ⟨((s.data.dropWhile (fun c => cs.data.contains c)).reverse.dropWhile
      (fun c => cs.data.contains c)).reverse⟩

/-- Embedding of `_clean_representative_name`: truncate at trailing-clause
markers, strip punctuation, and enforce the 2–99 character length bounds. -/
def cleanRepresentativeName (name : String) : Option String :=
  if name == "" then none
  else
    let cleaned := pyStrip (splitFirst "Ngoài ra" name)
    let cleaned := pyStrip (splitFirst "còn đại diện" cleaned)
    let cleaned := pyStrip (splitFirst "\n" cleaned)
    let cleaned := pyStrip (splitFirst "<" cleaned)
    let cleaned := stripChars ".,;: " cleaned
    let cleaned := pyStrip (splitFirst "(" cleaned)
    if !(cleaned == "") && decide (1 < cleaned.length) &&
        decide (cleaned.length < 100) then
      some cleaned
    else none

/-- Validated candidates produced by the extraction helpers, in priority
order: `_extract_rep_from_container_structure`, then (when the label text
node exists) the six parent-anchored helpers, then
`_extract_rep_from_pattern_matching`. -/
structure RepStrategies where
  containerStructure : Option String
  parentFound : Bool
  parentLink : Option String
  parentStrongB : Option String
  parentSpanDivP : Option String
  parentText : Option String
  siblingText : Option String
  parentContainer : Option String
  patternMatching : Option String
deriving DecidableEq

/-- First-truthy choice (`if not rep_name:` chaining). -/
def orTruthy (x y : Option String) : Option String :=
  if pyTruthy x then x else y

/-- The first-truthy candidate of the strategy chain: container structure
first, then (when the "Người đại diện" text node was found) the six
parent-anchored helpers in order, then global pattern matching. -/
def repCandidate (s : RepStrategies) : Option String :=
  orTruthy s.containerStructure
    (orTruthy
      (if s.parentFound then
        orTruthy s.parentLink (orTruthy s.parentStrongB (orTruthy s.parentSpanDivP
          (orTruthy s.parentText (orTruthy s.siblingText s.parentContainer))))
      else none)
      s.patternMatching)

/-- Embedding of `_parse_representative`: return unchanged when the field is
already (truthily) set, else take the first truthy strategy result, clean
it, and store it only when cleaning succeeds. -/
def parseRepresentative (s : RepStrategies) (details : DetailInfo) : DetailInfo :=
  if pyTruthy details.representative then details
  else
    if pyTruthy (repCandidate s) then
      match cleanRepresentativeName ((repCandidate s).getD "") with
      | some cleaned => { details with representative := some cleaned }
      | none => details
    else details

/-- Strategy results offering a conflicting candidate for the C9 witness. -/
def sW9 : RepStrategies :=
  ⟨some "Tran Thi B", true, some "Tran Thi B", none, none, none, none, none,
   some "Tran Thi B"⟩

/-- Details map whose representative was already set by the primary table
parse. -/
def dW9 : DetailInfo :=
  ⟨some "0312345678", none, none, some "Nguyen Van A", none, none, none, none,
   none, none, none⟩

/-! ## Lemmas and claim theorems -/

lemma evictOld_sublist (tw now : ℚ) (l : List ℚ) :
    List.Sublist (evictOld tw now l) l := by
  induction l with
  | nil => simp [evictOld]
  | cons x xs ih =>
      simp only [evictOld]
      split
      · exact ih.trans (List.sublist_cons_self x xs)
      · exact List.Sublist.refl _

lemma evictOld_length_le (tw now : ℚ) (l : List ℚ) :
    (evictOld tw now l).length ≤ l.length :=
  (evictOld_sublist tw now l).length_le

lemma mem_of_mem_evictOld {tw now x : ℚ} {l : List ℚ}
    (h : x ∈ evictOld tw now l) : x ∈ l :=
  (evictOld_sublist tw now l).mem h

lemma evictOld_sorted {tw now : ℚ} {l : List ℚ}
    (h : l.Sorted (· ≤ ·)) : (evictOld tw now l).Sorted (· ≤ ·) :=
  h.sublist (evictOld_sublist tw now l)

lemma evictOld_age {tw now : ℚ} {l : List ℚ} (hs : l.Sorted (· ≤ ·)) :
    ∀ x ∈ evictOld tw now l, now - x ≤ tw := by
  induction l with
  | nil => simp [evictOld]
  | cons a as ih =>
      intro x hx
      rw [evictOld] at hx
      split at hx
      · exact ih hs.of_cons x hx
      · rename_i hkeep
        rcases List.mem_cons.mp hx with rfl | hmem
        · linarith [not_lt.mp (fun hlt => hkeep hlt)]
        · have hax : a ≤ x := (List.sorted_cons.mp hs).1 x hmem
          have : ¬ now - a > tw := hkeep
          linarith [not_lt.mp this]

lemma evictOld_cons_of_old {tw now a : ℚ} {l : List ℚ} (h : now - a > tw) :
    evictOld tw now (a :: l) = evictOld tw now l := by
  simp [evictOld, h]

lemma headD_mem_of_ne_nil {l : List ℚ} (h : l ≠ []) : l.headD 0 ∈ l := by
  cases l with
  | nil => exact absurd rfl h
  | cons a t => exact List.mem_cons_self a t

lemma windowInv_reachable {cfg : RLConfig} {s : RLState} {t : ℚ}
    (htw : 0 ≤ cfg.timeWindow) (hmr : 1 ≤ cfg.maxRequests)
    (h : RLReachable cfg s t) : WindowInv cfg s t := by
  induction h with
  | init t0 => refine ⟨by simp, by simp, by simp⟩
  | step now drawn now2 hs hmono hslept hnosleep ih =>
      rename_i s t
      obtain ⟨ihsort, ihmem, ihlen⟩ := ih
      set ts := evictOld cfg.timeWindow now s.requestTimes with hts
      have hts_sorted : ts.Sorted (· ≤ ·) := evictOld_sorted ihsort
      have hts_le_now : ∀ x ∈ ts, x ≤ now := fun x hx =>
        le_trans (ihmem x (mem_of_mem_evictOld hx)).1 hmono
      have hts_age : ∀ x ∈ ts, now - x ≤ cfg.timeWindow :=
        evictOld_age ihsort
      have hts_len : ts.length ≤ cfg.maxRequests :=
        le_trans (evictOld_length_le _ _ _) ihlen
      have hmid_sorted : (ts ++ [now]).Sorted (· ≤ ·) := by
        refine List.pairwise_append.mpr ⟨hts_sorted, List.sorted_singleton now, ?_⟩
        intro x hx y hy
        rcases List.mem_singleton.mp hy with rfl
        exact hts_le_now x hx
      have hmid_mem : ∀ x ∈ ts ++ [now], x ≤ now ∧ now - x ≤ cfg.timeWindow := by
        intro x hx
        rcases List.mem_append.mp hx with hx | hx
        · exact ⟨hts_le_now x hx, hts_age x hx⟩
        · rcases List.mem_singleton.mp hx with rfl
          exact ⟨le_refl _, by linarith⟩
      -- When the evicted window is full, the computed wait is at least the
      -- window-exit wait `time_window - (now - head) + 0.1`.
      have hhead_mem : ts ≠ [] → ts.headD 0 ∈ ts := headD_mem_of_ne_nil
      have hfull_wait : ts.length = cfg.maxRequests →
          cfg.timeWindow - (now - ts.headD 0) + 1 / 10 ≤
            computeWaitTime cfg s now drawn := by
        intro hfull
        have hne : ts ≠ [] := List.ne_nil_of_length_pos (by omega)
        have hage : now - ts.headD 0 ≤ cfg.timeWindow := hts_age _ (hhead_mem hne)
        have hwpos : cfg.timeWindow - (now - ts.headD 0) + 1 / 10 ≤
            windowWait cfg ts now := by
          rw [windowWait, if_pos (le_of_eq hfull.symm)]
          rw [if_neg (by linarith)]
        rw [computeWaitTime]
        cases hlast : s.lastRequestTime with
        | none => simpa [← hts] using hwpos
        | some last =>
            simp only [← hts]
            split
            · exact le_trans hwpos (le_max_left _ _)
            · exact hwpos
      rw [waitIfNeeded]
      split
      · -- slept: re-evicted at now2
        rename_i hpos
        have hnow2 : now + computeWaitTime cfg s now drawn ≤ now2 := hslept hpos
        have hnow_le : now ≤ now2 := by linarith
        refine ⟨evictOld_sorted hmid_sorted, ?_, ?_⟩
        · intro x hx
          have hx' := mem_of_mem_evictOld hx
          exact ⟨le_trans (hmid_mem x hx').1 hnow_le,
            evictOld_age hmid_sorted x hx⟩
        · -- length bound
          by_cases hfull : ts.length = cfg.maxRequests
          · -- the head of the full window is evicted after the sleep
            have hwt := hfull_wait hfull
            cases hts' : ts with
            | nil =>
                rw [hts'] at hfull
                simp at hfull
                omega
            | cons a l =>
                rw [hts'] at hwt
                simp only [List.headD_cons] at hwt
                have hold : now2 - a > cfg.timeWindow := by linarith
                have : evictOld cfg.timeWindow now2 ((midCallState cfg s now).requestTimes)
                    = evictOld cfg.timeWindow now2 (l ++ [now]) := by
                  simp only [midCallState, ← hts, hts', List.cons_append]
                  exact evictOld_cons_of_old hold
                rw [this]
                calc (evictOld cfg.timeWindow now2 (l ++ [now])).length
                    ≤ (l ++ [now]).length := evictOld_length_le _ _ _
                  _ = l.length + 1 := by simp
                  _ = ts.length := by rw [hts']; simp
                  _ ≤ cfg.maxRequests := hts_len
          · have hlt : ts.length < cfg.maxRequests := lt_of_le_of_ne hts_len hfull
            calc (evictOld cfg.timeWindow now2 ((midCallState cfg s now).requestTimes)).length
                ≤ ((midCallState cfg s now).requestTimes).length := evictOld_length_le _ _ _
              _ = ts.length + 1 := by simp [midCallState, ← hts]
              _ ≤ cfg.maxRequests := by omega
      · -- no sleep: now2 = now and the window did not reach capacity
        rename_i hnpos
        have hnow2 : now2 = now := hnosleep hnpos
        have hfull : ts.length ≠ cfg.maxRequests := by
          intro hfull
          have hne : ts ≠ [] := List.ne_nil_of_length_pos (by omega)
          have hage : now - ts.headD 0 ≤ cfg.timeWindow := hts_age _ (hhead_mem hne)
          exact hnpos (lt_of_lt_of_le (by linarith) (hfull_wait hfull))
        have hlt : ts.length < cfg.maxRequests := lt_of_le_of_ne hts_len hfull
        subst hnow2
        exact ⟨hmid_sorted, hmid_mem, by simp [midCallState, ← hts]; omega⟩

/-- C2 (amended): at every call boundary — i.e. in every state reachable by a
completed sequence of `wait_if_needed` calls — the request-timestamp window
contains at most `max_requests` timestamps whose age is at most
`time_window` seconds. -/
theorem rateLimiter_window_bound (cfg : RLConfig) (s : RLState) (t : ℚ)
    (htw : 0 ≤ cfg.timeWindow) (hmr : 1 ≤ cfg.maxRequests)
    (h : RLReachable cfg s t) :
    countRecent cfg.timeWindow t s.requestTimes ≤ cfg.maxRequests := by
  have inv := windowInv_reachable htw hmr h
  exact le_trans (List.length_filter_le _ _) inv.2.2

/-- Witness for `rateLimiter_window_bound` at the default configuration
restricted to two requests per minute, in the initial state. -/
theorem rateLimiter_window_bound_witness :
    countRecent (60 : ℚ) 0 ([] : List ℚ) ≤ 2 :=
  rateLimiter_window_bound ⟨2, 60, 1, 3, false⟩ ⟨[], none⟩ 0 (by norm_num)
    (by norm_num) (RLReachable.init 0)

/-- C2 counterexample: the claim "at every point the window contains at most
`max_requests` timestamps whose age is at most `time_window`" fails as
stated.  `wait_if_needed` appends the new timestamp *before* sleeping (and
sleeps outside the lock), so during a third call at time 1 the window
transiently holds 3 > `max_requests` = 2 in-window timestamps. -/
theorem rateLimiter_window_bound_cex :
    RLReachable rlCfgCex rlStateCex 1 ∧
    countRecent rlCfgCex.timeWindow 1
      ((midCallState rlCfgCex rlStateCex 1).requestTimes) = 3 ∧
    rlCfgCex.maxRequests = 2 := by
  refine ⟨?_, ?_, by norm_num [rlCfgCex]⟩
  · have h0 : RLReachable rlCfgCex ⟨[], none⟩ 0 := RLReachable.init 0
    have h1 : RLReachable rlCfgCex ⟨[0], some 0⟩ 0 := by
      have hstep := @RLReachable.step rlCfgCex ⟨[], none⟩ 0
        0 0 0 h0 le_rfl
        (by norm_num [computeWaitTime, evictOld, windowWait, delayTarget, rlCfgCex])
        (fun _ => rfl)
      have he : waitIfNeeded rlCfgCex ⟨[], none⟩ 0 0 0 = ⟨[0], some 0⟩ := by
        norm_num [waitIfNeeded, computeWaitTime, midCallState, evictOld,
          windowWait, delayTarget, rlCfgCex]
      exact he ▸ hstep
    have hwt2 : computeWaitTime rlCfgCex ⟨[0], some 0⟩ (1 / 2) 0 = 1 / 2 := by
      norm_num [computeWaitTime, evictOld, windowWait, delayTarget, rlCfgCex, max_def]
    have hstep := @RLReachable.step rlCfgCex ⟨[0], some 0⟩ 0
      (1 / 2) 0 1 h1 (by norm_num)
      (by rw [hwt2]; norm_num) (by rw [hwt2]; norm_num)
    have he : waitIfNeeded rlCfgCex ⟨[0], some 0⟩ (1 / 2) 0 1 = rlStateCex := by
      rw [waitIfNeeded, hwt2]
      norm_num [midCallState, evictOld, rlCfgCex, rlStateCex]
    exact he ▸ hstep
  · norm_num [countRecent, midCallState, evictOld, rlCfgCex, rlStateCex, List.filter]

/-- C5: if no quick keyword occurs in the body, `_has_captcha` returns
`False` without any structural work (the result does not depend on what the
structural phase would do); a page containing "recaptcha" only in prose is
classified not blocked; a page with a `g-recaptcha` class element is
classified blocked. -/
theorem hasCaptcha_quick_scan_spec :
    (∀ (p : Page) (e : Option ParsePhaseError),
      quickIndicators.any (fun k => strIn k (pyLower p.html)) = false →
      hasCaptcha p e = some false) ∧
    hasCaptcha prosePage none = some false ∧
    hasCaptcha widgetPage none = some true := by
  refine ⟨fun p e h => by simp [hasCaptcha, h], by decide, by decide⟩

/-- Witness for `hasCaptcha_quick_scan_spec` on a concrete keyword-free
page (even under a hypothetical structural-phase exception). -/
theorem hasCaptcha_quick_scan_spec_witness :
    quickIndicators.any (fun k => strIn k (pyLower plainPage.html)) = false ∧
    hasCaptcha plainPage (some ParsePhaseError.attrValueType) = some false :=
  ⟨by decide, hasCaptcha_quick_scan_spec.1 plainPage
    (some ParsePhaseError.attrValueType) (by decide)⟩

/-- C6 (code-bug evaluation): when the structural phase raises an
`AttributeError`/`ValueError`/`TypeError`, `_has_captcha` returns `None`
(the handler logs "falling back to string search" but has no `return`), even
though the keyword-only scan would return `True` here; only the generic
`except Exception` handler actually performs the keyword fallback. -/
theorem hasCaptcha_parse_error_swallowed :
    hasCaptcha geetestPage (some ParsePhaseError.attrValueType) = none ∧
    keywordOnlyScan geetestPage = true ∧
    hasCaptcha geetestPage (some ParsePhaseError.otherExc) = some true := by
  refine ⟨by decide, by decide, by decide⟩

lemma chunkSleepGo_ge : ∀ (fuel : Nat) (r : Int), r.toNat ≤ fuel →
    r ≤ chunkSleepGo fuel r := by
  intro fuel
  induction fuel with
  | zero => intro r h; simp only [chunkSleepGo]; omega
  | succ n ih =>
      intro r h
      simp only [chunkSleepGo]
      split
      · rename_i hpos
        have hs : min 5 r ≤ r ∧ 1 ≤ min 5 r := by omega
        have hrec := ih (r - min 5 r) (by omega)
        omega
      · rename_i hneg
        omega

lemma chunkSleepTotal_ge (wt : Int) : wt ≤ chunkSleepTotal wt :=
  chunkSleepGo_ge wt.toNat wt (le_refl _)

/-- C1 (code-bug evaluation): when retries are exhausted — for a generic
HTTP error, a transport failure, or a 403/429 after cool-down — the raise
sites pass `url=` (and `status_code=`) to `NetworkError`, whose `__init__`
accepts only `message` and `original_error`; the constructor call therefore
raises `TypeError`, and no `NetworkError` carrying the URL and status ever
reaches the caller. -/
theorem networkError_raise_is_typeError :
    (fetchLoop "https://masothue.com/Search/" 2 false
      (fun _ => .httpError 500 none)).outcome = .raised .typeErr ∧
    (fetchLoop "https://masothue.com/Search/" 2 false
      (fun _ => .transportError)).outcome = .raised .typeErr ∧
    (fetchLoop "https://masothue.com/Search/" 1 true
      (fun _ => .httpError 403 none)).outcome = .raised .typeErr ∧
    "url" ∈ kwargsHttpExhausted ∧ "url" ∉ networkErrorInitParams ∧
    "status_code" ∈ kwargsCooldownExhausted ∧
    "status_code" ∉ networkErrorInitParams := by
  refine ⟨by decide, by decide, by decide, by decide, by decide, by decide, by decide⟩

/-- C4: on a 403/429, the cool-down duration is the parsed `Retry-After`
integer when the header value parses (defaulting the absent header to the
string "30"), else 30; for 403 it is raised to at least 60; and whenever the
ensuing sleep completes, at least that many seconds are slept. -/
theorem cooldown_wait_spec (status : Nat) (retryAfter : Option String) (cb : Bool)
    (_hst : status = 403 ∨ status = 429) :
    (∀ n : Int, pyInt (retryAfter.getD "30") = some n →
      cooldownWait status retryAfter = if status = 403 then max n 60 else n) ∧
    (pyInt (retryAfter.getD "30") = none →
      cooldownWait status retryAfter = if status = 403 then 60 else 30) ∧
    (status = 403 → 60 ≤ cooldownWait status retryAfter) ∧
    (∀ slept : Int, cooldownSleep cb (cooldownWait status retryAfter) = some slept →
      cooldownWait status retryAfter ≤ slept) := by
  refine ⟨?_, ?_, ?_, ?_⟩
  · intro n hn
    simp [cooldownWait, hn]
  · intro hn
    simp only [cooldownWait, hn, Option.getD_none]
    split <;> norm_num
  · intro h403
    simp only [cooldownWait, h403, if_pos rfl]
    exact le_max_right _ _
  · intro slept hs
    rw [cooldownSleep] at hs
    split at hs
    · rcases Option.some.injEq _ _ ▸ hs with h
      have := chunkSleepTotal_ge (cooldownWait status retryAfter)
      omega
    · rw [pySleep] at hs
      split at hs
      · exact absurd hs (by simp)
      · have := Option.some.inj hs
        omega

/-- Witness for `cooldown_wait_spec`: a 429 with `Retry-After: 5` computes a
5-second cool-down, and the chunked sleep path sleeps exactly 5 ≥ 5 seconds. -/
theorem cooldown_wait_spec_witness :
    cooldownWait 429 (some "5") = 5 ∧
    cooldownSleep true (cooldownWait 429 (some "5")) = some 5 ∧
    cooldownWait 429 (some "5") ≤ 5 := by
  have h := cooldown_wait_spec 429 (some "5") true (Or.inr rfl)
  refine ⟨?_, by decide, ?_⟩
  · have h5 := h.1 5 (by decide)
    simpa using h5
  · exact h.2.2.2 5 (by decide)

lemma totalSizeMb_append (a b : List CFile) :
    totalSizeMb (a ++ b) = totalSizeMb a + totalSizeMb b := by
  simp [totalSizeMb]

lemma totalSizeMb_cons (f : CFile) (l : List CFile) :
    totalSizeMb (f :: l) = f.size + totalSizeMb l := by
  simp [totalSizeMb]

lemma cleanupLoop_kept_size (cfg : FileCacheConfig) (now excess : ℚ) :
    ∀ (l : List CFile) (dsize : ℚ),
      totalSizeMb ((cleanupLoop cfg now excess dsize l).2.1 ++
        (cleanupLoop cfg now excess dsize l).2.2) ≤
      max (totalSizeMb l + dsize - excess) 0 := by
  intro l
  induction l with
  | nil =>
      intro dsize
      simp only [cleanupLoop, List.append_nil]
      exact le_max_right (totalSizeMb [] + dsize - excess) 0
  | cons f rest ih =>
      intro dsize
      simp only [cleanupLoop]
      by_cases hdel : (isExpiredAt cfg now f || decide (dsize < excess)) = true
      · rw [if_pos hdel]
        by_cases hbrk : excess ≤ dsize + f.size
        · rw [if_pos hbrk]
          refine le_trans ?_ (le_max_left _ _)
          rw [totalSizeMb_cons]
          simp only [List.nil_append]
          linarith
        · rw [if_neg hbrk]
          refine le_trans (ih (dsize + f.size)) ?_
          rw [totalSizeMb_cons]
          apply max_le_max_right
          linarith
      · rw [if_neg hdel]
        have hge : excess ≤ dsize := by
          rcases Bool.or_eq_false_iff.mp (Bool.not_eq_true _ ▸ hdel) with ⟨_, h2⟩
          have := of_decide_eq_false h2
          linarith [not_lt.mp this]
        rw [if_pos hge]
        refine le_trans ?_ (le_max_left _ _)
        simp only [totalSizeMb, List.map_append, List.sum_append, List.map_cons,
          List.sum_cons, List.map_nil, List.sum_nil]
        linarith

lemma cleanupLoop_deleted_sublist (cfg : FileCacheConfig) (now excess : ℚ) :
    ∀ (l : List CFile) (dsize : ℚ),
      List.Sublist (cleanupLoop cfg now excess dsize l).1 l := by
  intro l
  induction l with
  | nil => intro dsize; simp [cleanupLoop]
  | cons f rest ih =>
      intro dsize
      simp only [cleanupLoop]
      by_cases hdel : (isExpiredAt cfg now f || decide (dsize < excess)) = true
      · rw [if_pos hdel]
        by_cases hbrk : excess ≤ dsize + f.size
        · rw [if_pos hbrk]
          exact (List.nil_sublist rest).cons₂ f
        · rw [if_neg hbrk]
          exact (ih (dsize + f.size)).cons₂ f
      · rw [if_neg hdel]
        by_cases hbrk : excess ≤ dsize
        · rw [if_pos hbrk]
          exact List.nil_sublist _
        · rw [if_neg hbrk]
          exact (ih dsize).cons f

lemma cleanupLoop_kept_unexpired (cfg : FileCacheConfig) (now excess : ℚ) :
    ∀ (l : List CFile) (dsize : ℚ),
      ∀ f ∈ (cleanupLoop cfg now excess dsize l).2.1,
        isExpiredAt cfg now f = false := by
  intro l
  induction l with
  | nil => intro dsize f hf; simp [cleanupLoop] at hf
  | cons g rest ih =>
      intro dsize f hf
      simp only [cleanupLoop] at hf
      by_cases hdel : (isExpiredAt cfg now g || decide (dsize < excess)) = true
      · rw [if_pos hdel] at hf
        by_cases hbrk : excess ≤ dsize + g.size
        · rw [if_pos hbrk] at hf
          simp at hf
        · rw [if_neg hbrk] at hf
          exact ih (dsize + g.size) f hf
      · rw [if_neg hdel] at hf
        have hexp : isExpiredAt cfg now g = false :=
          (Bool.or_eq_false_iff.mp (Bool.not_eq_true _ ▸ hdel)).1
        by_cases hbrk : excess ≤ dsize
        · rw [if_pos hbrk] at hf
          simp at hf
          rcases hf with rfl
          exact hexp
        · rw [if_neg hbrk] at hf
          simp only [List.mem_cons] at hf
          rcases hf with rfl | hf
          · exact hexp
          · exact ih dsize f hf

lemma totalSizeMb_perm {a b : List CFile} (h : a.Perm b) :
    totalSizeMb a = totalSizeMb b := by
  unfold totalSizeMb
  exact (h.map (fun f => f.size)).sum_eq

/-- C7: an entry whose `_cached_at` lies more than `expiry_days * 86400`
seconds in the past is reported absent by `get`, and its file is removed
from disk by that call. -/
theorem cache_expiry_spec (cfg : FileCacheConfig) (now : ℚ) (fs : List CFile)
    (key : String) (f : CFile)
    (hfind : fs.find? (fun g => g.key == key) = some f)
    (hexp : cfg.expiryDays * 86400 < now - f.cachedAt) :
    (cacheGet cfg now fs key).1 = none ∧
    (cacheGet cfg now fs key).2.find? (fun g => g.key == key) = none := by
  have hexp' : isExpiredAt cfg now f = true := by
    rw [isExpiredAt, decide_eq_true_iff, expirySeconds]
    linarith
  have hstep : cacheGet cfg now fs key =
      (none, fs.filter (fun g => !(g.key == key))) := by
    rw [cacheGet, hfind]
    simp [hexp']
  rw [hstep]
  refine ⟨rfl, ?_⟩
  rw [List.find?_eq_none]
  intro x hx
  have := (List.mem_filter.mp hx).2
  simpa using this

/-- Witness for `cache_expiry_spec`: a 7-day cache holding a single entry
stamped at epoch 0, read at epoch 700000 > 604800. -/
theorem cache_expiry_spec_witness :
    ((cacheGet ⟨7, 100, true⟩ 700000 [⟨"k", 1, 0, [("status", "active")]⟩] "k").1
      = none) ∧
    ((cacheGet ⟨7, 100, true⟩ 700000 [⟨"k", 1, 0, [("status", "active")]⟩] "k").2.find?
      (fun g => g.key == "k") = none) :=
  cache_expiry_spec ⟨7, 100, true⟩ 700000 [⟨"k", 1, 0, [("status", "active")]⟩]
    "k" ⟨"k", 1, 0, [("status", "active")]⟩ (by simp [List.find?]) (by norm_num)

/-- C8: after a `set` with cleanup enabled — when the written directory is
within the cap, exactly the expired entries are purged; when it exceeds the
cap, the loop deletes in ascending `_cached_at` order (the deleted list is
sorted oldest-first), every examined-but-kept entry is unexpired, and the
remaining total size is at most `max_size_mb`. -/
theorem cache_eviction_spec (cfg : FileCacheConfig) (now : ℚ) (fs : List CFile)
    (key : String) (value : List (String × String)) (fileSize : ℚ)
    (henable : cfg.enableCleanup = true) (hcap : 0 ≤ cfg.maxSizeMb) :
    (totalSizeMb (writeEntry now fs key value fileSize) ≤ cfg.maxSizeMb →
      cacheSet cfg now fs key value fileSize =
        (writeEntry now fs key value fileSize).filter
          (fun f => !isExpiredAt cfg now f)) ∧
    (cfg.maxSizeMb < totalSizeMb (writeEntry now fs key value fileSize) →
      ∀ ds ks us,
        cleanupLoop cfg now
            (totalSizeMb (writeEntry now fs key value fileSize) - cfg.maxSizeMb) 0
            (getCacheFilesSorted (writeEntry now fs key value fileSize))
          = (ds, ks, us) →
        cacheSet cfg now fs key value fileSize = ks ++ us ∧
        totalSizeMb (ks ++ us) ≤ cfg.maxSizeMb ∧
        ds.Pairwise byCachedAt ∧
        (∀ f ∈ ks, isExpiredAt cfg now f = false)) := by
  set fs2 := writeEntry now fs key value fileSize with hfs2
  constructor
  · intro hin
    rw [cacheSet, if_pos henable, cleanupIfNeeded, if_pos hin]
  · intro hover ds ks us hloop
    have hres : cacheSet cfg now fs key value fileSize = ks ++ us := by
      rw [cacheSet, if_pos henable, cleanupIfNeeded, if_neg (not_le.mpr hover)]
      rw [← hfs2, hloop]
    refine ⟨hres, ?_, ?_, ?_⟩
    · have hb := cleanupLoop_kept_size cfg now (totalSizeMb fs2 - cfg.maxSizeMb)
        (getCacheFilesSorted fs2) 0
      rw [hloop] at hb
      have hperm : totalSizeMb (getCacheFilesSorted fs2) = totalSizeMb fs2 :=
        totalSizeMb_perm (List.perm_insertionSort byCachedAt fs2)
      rw [hperm] at hb
      have hmax : max (totalSizeMb fs2 + 0 - (totalSizeMb fs2 - cfg.maxSizeMb)) 0
          = cfg.maxSizeMb := by
        rw [max_eq_left]
        · ring
        · linarith
      rw [hmax] at hb
      simpa using hb
    · have hsub := cleanupLoop_deleted_sublist cfg now
        (totalSizeMb fs2 - cfg.maxSizeMb) (getCacheFilesSorted fs2) 0
      rw [hloop] at hsub
      exact (List.sorted_insertionSort byCachedAt fs2).sublist hsub
    · intro f hf
      have hk := cleanupLoop_kept_unexpired cfg now
        (totalSizeMb fs2 - cfg.maxSizeMb) (getCacheFilesSorted fs2) 0
      rw [hloop] at hk
      exact hk f hf

/-- Witness for `cache_eviction_spec`: a 1 MB cache holding two 0.75 MB
entries receives a third; the two oldest are evicted (oldest first) and the
remaining 0.75 MB is within the cap. -/
theorem cache_eviction_spec_witness :
    cacheSet ⟨7, 1, true⟩ 100
        [⟨"a", 3 / 4, 10, []⟩, ⟨"b", 3 / 4, 20, []⟩] "c" [] (3 / 4)
      = [] ++ [⟨"c", 3 / 4, 100, []⟩] ∧
    totalSizeMb ([] ++ [⟨"c", 3 / 4, 100, []⟩]) ≤ 1 ∧
    List.Pairwise byCachedAt [⟨"a", 3 / 4, 10, []⟩, ⟨"b", 3 / 4, 20, []⟩] ∧
    (∀ f ∈ ([] : List CFile), isExpiredAt ⟨7, 1, true⟩ 100 f = false) := by
  have h1 : ("a" == "c") = false := by decide
  have h2 : ("b" == "c") = false := by decide
  have h := (cache_eviction_spec ⟨7, 1, true⟩ 100
    [⟨"a", 3 / 4, 10, []⟩, ⟨"b", 3 / 4, 20, []⟩] "c" [] (3 / 4) rfl (by norm_num)).2
    (by norm_num [writeEntry, totalSizeMb, List.filter, h1, h2])
    [⟨"a", 3 / 4, 10, []⟩, ⟨"b", 3 / 4, 20, []⟩] [] [⟨"c", 3 / 4, 100, []⟩]
    (by norm_num [cleanupLoop, getCacheFilesSorted, List.insertionSort,
      List.orderedInsert, byCachedAt, isExpiredAt, expirySeconds, writeEntry,
      totalSizeMb, List.filter, h1, h2])
  exact h

lemma mergedFrom_update (r : CompanySearchResult) (d : DetailInfo) :
    MergedFrom (updateResultFromDetails r d) d := by
  refine ⟨rfl, rfl, rfl, rfl, rfl, rfl, rfl, rfl, ?_, ?_⟩ <;>
    intro h <;> simp [updateResultFromDetails, pyOrOpt, h]

lemma updateResultFromDetails_tax_code (r : CompanySearchResult) (d : DetailInfo) :
    (updateResultFromDetails r d).tax_code = r.tax_code := rfl

lemma updateResultFromDetails_detail_url (r : CompanySearchResult) (d : DetailInfo) :
    (updateResultFromDetails r d).detail_url = r.detail_url := rfl

lemma searchLoop_spec (gd : String → Except PyErr DetailInfo) (q : String) :
    ∀ (rs : List CompanySearchResult) (out : List CompanySearchResult),
      searchLoop gd q rs = Except.ok out →
      out.length ≤ 1 ∧ ∀ r ∈ out, r.tax_code = q ∧
        (∀ url, r.detail_url = some url → ∀ d, gd url = Except.ok d →
          MergedFrom r d) := by
  intro rs
  induction rs with
  | nil =>
      intro out h
      rw [searchLoop] at h
      rcases Except.ok.inj h with rfl
      simp
  | cons r rest ih =>
      intro out h
      rw [searchLoop] at h
      by_cases hm : (r.tax_code == q) = true
      · rw [if_pos hm] at h
        have htc : r.tax_code = q := by simpa using hm
        split at h
        · -- detail_url = none
          rename_i hurl
          rcases Except.ok.inj h with rfl
          refine ⟨by simp, ?_⟩
          intro x hx
          rcases List.mem_singleton.mp hx with rfl
          refine ⟨htc, ?_⟩
          intro url hu
          rw [hurl] at hu
          exact absurd hu (by simp)
        · -- detail_url = some url
          rename_i url hurl
          cases hgd : gd url with
          | ok d =>
              rw [hgd] at h
              rcases Except.ok.inj h with rfl
              refine ⟨by simp, ?_⟩
              intro x hx
              rcases List.mem_singleton.mp hx with rfl
              refine ⟨by rw [updateResultFromDetails_tax_code]; exact htc, ?_⟩
              intro url' hu d' hd'
              rw [updateResultFromDetails_detail_url, hurl] at hu
              rcases Option.some.inj hu with rfl
              have hd : d' = d := by
                rw [hgd] at hd'
                exact (Except.ok.inj hd').symm
              rw [hd]
              exact mergedFrom_update r d
          | error e =>
              rw [hgd] at h
              cases e <;> simp at h <;>
                (subst h
                 refine ⟨by simp, ?_⟩
                 intro x hx
                 rcases List.mem_singleton.mp hx with rfl
                 refine ⟨htc, ?_⟩
                 intro url' hu d' hd'
                 rw [hurl] at hu
                 rcases Option.some.inj hu with rfl
                 rw [hgd] at hd'
                 simp at hd')
      · rw [if_neg hm] at h
        exact ih out h

lemma isWhitespace_eq_false_of_isDigit {c : Char} (h : c.isDigit = true) :
    c.isWhitespace = false := by
  simp only [Char.isDigit] at h
  simp only [Char.isWhitespace]
  rw [Bool.and_eq_true] at h
  obtain ⟨h1, h2⟩ := h
  simp only [Bool.or_eq_false_iff]
  refine ⟨⟨⟨?_, ?_⟩, ?_⟩, ?_⟩ <;>
    (rw [decide_eq_false_iff_not]
     rintro rfl
     revert h1
     decide)

lemma dropWhile_ws_of_digits {l : List Char} (hall : l.all Char.isDigit = true) :
    l.dropWhile Char.isWhitespace = l := by
  cases l with
  | nil => rfl
  | cons c cs =>
      have hc : c.isDigit = true := by
        rw [List.all_cons, Bool.and_eq_true] at hall
        exact hall.1
      rw [List.dropWhile_cons, isWhitespace_eq_false_of_isDigit hc]
      simp

lemma pyStrip_of_digits {s : String} (h : isdigitStr s = true) : pyStrip s = s := by
  rw [isdigitStr] at h
  have hall : s.data.all Char.isDigit = true := by
    rw [Bool.and_eq_true] at h
    exact h.2
  have hrev : s.data.reverse.all Char.isDigit = true := by simpa using hall
  rw [pyStrip, dropWhile_ws_of_digits hall, dropWhile_ws_of_digits hrev,
    List.reverse_reverse]

lemma beq_empty_eq_false_of_digits {q : String} (h : isdigitStr q = true) :
    (q == "") = false := by
  rw [isdigitStr] at h
  have hne : q.data ≠ [] := by
    intro hnil
    rw [Bool.and_eq_true] at h
    have := h.1
    rw [hnil] at this
    simp at this
  rw [beq_eq_false_iff_ne]
  intro heq
  exact hne (congrArg String.data heq)

/-- C3: for a digit-only query (unchanged by sanitization), a successful
`search_companies` call returns at most one result; a returned result's
`tax_code` equals the query, and when it has a `detail_url` whose detail
fetch succeeded, the detail fields have been merged in. -/
theorem search_companies_digit_query (gd : String → Except PyErr DetailInfo)
    (rs : List CompanySearchResult) (q : String)
    (hsan : sanitizeQuery q = q) (hdig : isdigitStr q = true) :
    ∀ out, searchCompanies gd rs q false = Except.ok out →
      out.length ≤ 1 ∧ ∀ r ∈ out, r.tax_code = q ∧
        (∀ url, r.detail_url = some url → ∀ d, gd url = Except.ok d →
          MergedFrom r d) := by
  intro out h
  have hstrip := pyStrip_of_digits hdig
  have hne := beq_empty_eq_false_of_digits hdig
  simp only [searchCompanies, hsan, hne, Bool.false_eq_true, if_false,
    hstrip, hdig, if_true] at h
  exact searchLoop_spec gd q rs out h

/-- C10: for a digit query matching the head result, which carries a
`detail_url`, a `NetworkError` or `ParseError` from the detail fetch is
swallowed and the bare search-page result is returned, while a
`CaptchaRequiredError` or `CancelledError` propagates. -/
theorem search_companies_detail_error (gd : String → Except PyErr DetailInfo)
    (q : String) (r : CompanySearchResult) (rest : List CompanySearchResult)
    (url : String) (e : PyErr)
    (hsan : sanitizeQuery q = q) (hdig : isdigitStr q = true)
    (hmatch : r.tax_code = q) (hurl : r.detail_url = some url)
    (herr : gd url = Except.error e) :
    ((e = PyErr.networkErr ∨ e = PyErr.parseErr) →
      searchCompanies gd (r :: rest) q false = Except.ok [r]) ∧
    ((e = PyErr.captchaErr ∨ e = PyErr.cancelledErr) →
      searchCompanies gd (r :: rest) q false = Except.error e) := by
  have hstrip := pyStrip_of_digits hdig
  have hne := beq_empty_eq_false_of_digits hdig
  have hbeq : (r.tax_code == q) = true := by simpa using hmatch
  have hred : searchCompanies gd (r :: rest) q false =
      match gd url with
      | Except.ok d => Except.ok [updateResultFromDetails r d]
      | Except.error PyErr.captchaErr => Except.error PyErr.captchaErr
      | Except.error PyErr.cancelledErr => Except.error PyErr.cancelledErr
      | Except.error _ => Except.ok [r] := by
    simp only [searchCompanies, hsan, hne, Bool.false_eq_true, if_false,
      hstrip, hdig, if_true, searchLoop, hbeq, hurl]
  rw [hred, herr]
  constructor
  · rintro (rfl | rfl) <;> rfl
  · rintro (rfl | rfl) <;> rfl

/-- Witness for `search_companies_digit_query`: the 10-digit query of the
spec's end-to-end example returns exactly the one matching, detail-merged
result. -/
theorem search_companies_digit_query_witness :
    searchCompanies gdW3 [rW3] "1234567890" false
      = Except.ok [updateResultFromDetails rW3 dW3] ∧
    [updateResultFromDetails rW3 dW3].length ≤ 1 ∧
    (updateResultFromDetails rW3 dW3).tax_code = "1234567890" := by
  have heval : searchCompanies gdW3 [rW3] "1234567890" false
      = Except.ok [updateResultFromDetails rW3 dW3] := by rfl
  have h := search_companies_digit_query gdW3 [rW3] "1234567890" (by decide)
    (by decide) [updateResultFromDetails rW3 dW3] heval
  exact ⟨heval, h.1, (h.2 _ (List.mem_singleton_self _)).1⟩

/-- Witness for `search_companies_detail_error`: a detail fetch failing with
`NetworkError` is swallowed and the bare search-page result is returned. -/
theorem search_companies_detail_error_witness :
    searchCompanies (fun _ => Except.error PyErr.networkErr) [rW10] "9876543210"
      false = Except.ok [rW10] :=
  (search_companies_detail_error (fun _ => Except.error PyErr.networkErr)
    "9876543210" rW10 [] "https://masothue.com/9876543210" PyErr.networkErr
    (by decide) (by decide) rfl rfl rfl).1 (Or.inl rfl)

lemma parseRepresentative_shape (s : RepStrategies) (d : DetailInfo) :
    ∃ rep, parseRepresentative s d = { d with representative := rep } := by
  rw [parseRepresentative]
  split
  · exact ⟨d.representative, rfl⟩
  · split
    · split
      · exact ⟨_, rfl⟩
      · exact ⟨d.representative, rfl⟩
    · exact ⟨d.representative, rfl⟩

/-- C9: when the representative field is already (truthily) set,
`_parse_representative` is the identity — nothing is overwritten; and in
every case it can write at most the representative field, leaving every
other field of the details map unchanged. -/
theorem parse_representative_precedence (s : RepStrategies) (d : DetailInfo) :
    (pyTruthy d.representative = true → parseRepresentative s d = d) ∧
    ((parseRepresentative s d).tax_code = d.tax_code ∧
     (parseRepresentative s d).tax_address = d.tax_address ∧
     (parseRepresentative s d).address = d.address ∧
     (parseRepresentative s d).phone = d.phone ∧
     (parseRepresentative s d).status = d.status ∧
     (parseRepresentative s d).operation_date = d.operation_date ∧
     (parseRepresentative s d).managed_by = d.managed_by ∧
     (parseRepresentative s d).business_type = d.business_type ∧
     (parseRepresentative s d).main_business = d.main_business ∧
     (parseRepresentative s d).other_businesses = d.other_businesses) := by
  constructor
  · intro h
    rw [parseRepresentative, if_pos h]
  · obtain ⟨rep, hrep⟩ := parseRepresentative_shape s d
    rw [hrep]
    exact ⟨rfl, rfl, rfl, rfl, rfl, rfl, rfl, rfl, rfl, rfl⟩

/-- Witness for `parse_representative_precedence`: with the representative
already set, the conflicting fallback candidates change nothing. -/
theorem parse_representative_precedence_witness :
    pyTruthy dW9.representative = true ∧ parseRepresentative sW9 dW9 = dW9 :=
  ⟨by decide, (parse_representative_precedence sW9 dW9).1 (by decide)⟩

end TaxFinderVN
